import Mathlib

/-!
Verification of the Spyder VCS backend utilities
(`spyder/plugins/vcs/utils/{api,backend,errors}.py`) against their
natural-language specification.

The Python sources are shallowly embedded below: pure parsing functions become
Lean functions over `String`/`List Char`; Python exceptions become explicit
result constructors (`Except`/`Option`/dedicated inductives); Python dicts
become association lists with shadowing (`(k, v) :: d`, looked up
front-to-back).  Every definition is translated from the source file named in
its doc comment.  The embeddings are faithful for ASCII text (the Python
functions are only exercised on ASCII tool output; divergences of
`str.upper`/`bytes.lower` from the Lean ASCII versions on exotic Unicode are
noted where relevant).
-/

deriving instance DecidableEq for Except

namespace SpyderVCS

/-- `str.upper` on an ASCII character (the embeddings of `str.upper` /
`bytes.lower` below are the ASCII case maps, which agree with Python on all
the ASCII text these functions are exercised on). -/
def pyUpperChar (c : Char) : Char :=
  if 'a' ≤ c ∧ c ≤ 'z' then Char.ofNat (c.toNat - 32) else c

/-- `str.lower` / `bytes.lower` on an ASCII character. -/
def pyLowerChar (c : Char) : Char :=
  if 'A' ≤ c ∧ c ≤ 'Z' then Char.ofNat (c.toNat + 32) else c

/-- `s.upper()` (ASCII). -/
def pyUpper (s : String) : String := ⟨s.data.map pyUpperChar⟩

/-- `s.lower()` (ASCII). -/
def pyLower (s : String) : String := ⟨s.data.map pyLowerChar⟩

/-! ## `errors.py` — the exception taxonomy seen by the backend manager

`VCSBackendFail` is a subclass of `VCSError`; the manager's `repodir` setter
distinguishes three disjoint classes of construction failure:
`VCSBackendFail`, any other `VCSError`, and exceptions outside the `VCSError`
hierarchy.  Only those three classes (plus success) are observable in the
`repodir` setter, so a backend constructor is embedded as a function returning
one of the four outcomes. -/

/-- Outcome of calling one backend constructor `backend(path)`
(`VCSBackendManager.repodir` setter, `api.py` lines 880-889). -/
inductive CtorResult (β : Type) where
  /-- The constructor returned an instance. -/
  | ok (b : β)
  /-- The constructor raised `VCSBackendFail` (tool missing / not a repo). -/
  | throwBackendFail
  /-- The constructor raised a `VCSError` that is not a `VCSBackendFail`
  (e.g. `VCSUnexpectedError`, `VCSPropertyError`, `VCSAuthError`). -/
  | throwVCSError
  /-- The constructor raised an exception outside the `VCSError` hierarchy. -/
  | throwOther
  deriving DecidableEq, Repr

/-- Observable outcome of assigning `manager.repodir = path`
(`api.py` lines 875-895). -/
inductive BindOutcome (β : Type) where
  /-- `path` was falsy: `_backend` is set to `None`, no error is raised. -/
  | noBackend
  /-- A backend constructed successfully and became the active backend. -/
  | bound (b : β)
  /-- `VCSError("Valid backend not found for the given directory")` raised. -/
  | raisedNoValidBackend
  /-- An exception outside the `VCSError` hierarchy propagated out of the
  setter uncaught. -/
  | propagated
  deriving DecidableEq, Repr

/-- The backend probing loop of the `repodir` setter (`api.py` 879-895):
`VCSBackendFail` is recorded and the next constructor is tried; any other
`VCSError` is silently ignored ("Ignore weird errors") and the next
constructor is tried; any other exception is not caught and propagates;
the first successful construction breaks the loop.  When the loop ends with
no backend selected, `VCSError("Valid backend not found ...")` is raised. -/
def bindLoop {β : Type} (path : String) :
    List (String → CtorResult β) → BindOutcome β
  | [] => .raisedNoValidBackend
  | ctor :: rest =>
    match ctor path with
    | .ok b => .bound b
    | .throwBackendFail => bindLoop path rest
    | .throwVCSError => bindLoop path rest
    | .throwOther => .propagated

/-- The `repodir` setter (`api.py` 875-895): `self._backend` is first cleared;
if `path` is falsy (empty string) nothing else happens, otherwise the
registered backend constructors are probed in registration order. -/
def repodirSetter {β : Type} (path : String)
    (backends : List (String → CtorResult β)) : BindOutcome β :=
  if path = "" then .noBackend else bindLoop path backends

/-- A construction failure the probing loop recovers from (tries the next
backend): `VCSBackendFail` or any other `VCSError`. -/
def CtorResult.recoverable {β : Type} : CtorResult β → Prop
  | .throwBackendFail => True
  | .throwVCSError => True
  | _ => False

instance {β : Type} (r : CtorResult β) : Decidable r.recoverable := by
  cases r <;> simp [CtorResult.recoverable] <;> infer_instance

/-! ## `errors.py` — `VCSAuthError` -/

/-- `VCSAuthError` (`errors.py` 156-198): carries the four optional credential
fields and the sequence of required credential names. -/
structure VCSAuthError where
  required_credentials : List String
  username : Option String := none
  password : Option String := none
  email : Option String := none
  token : Option String := none
  deriving DecidableEq, Repr

/-- `getattr(self, key, None) is None` for a credential field name, as used by
`are_credentials_inserted` (`errors.py` 196-198).  Faithful for the four
credential attribute names (`username`, `password`, `email`, `token`);
attribute names never assigned on the instance also yield `None`
(`getattr` default). -/
def VCSAuthError.attrIsNone (e : VCSAuthError) : String → Bool
  | "username" => e.username.isNone
  | "password" => e.password.isNone
  | "email" => e.email.isNone
  | "token" => e.token.isNone
  | "required_credentials" => false
  | _ => true

/-- `VCSAuthError.are_credentials_inserted` (`errors.py` 193-198):
`all(getattr(self, key, None) is None for key in self.required_credentials)`. -/
def VCSAuthError.are_credentials_inserted (e : VCSAuthError) : Bool :=
  e.required_credentials.all fun key => e.attrIsNone key

/-! ## `api.py` — the `feature` decorator -/

/-- A Python-level call result: either a normal return value or a raised
exception (identified by its class name and message). -/
inductive PyCall (β : Type) where
  | ret (b : β)
  | raised (excClass : String) (msg : String)
  deriving DecidableEq, Repr

/-- A function decorated by `feature` (`api.py` 23-112): the decorator only
*sets attributes* on the function object (`__name__`, `enabled`, `extra`,
`_is_feature`) and returns the function unchanged — it does not wrap the call
behaviour. -/
structure Feature (α β : Type) where
  /-- `func.__name__` after decoration. -/
  funcName : String
  enabled : Bool
  extra : List (String × String)
  is_feature : Bool
  /-- Calling the decorated object calls the original function unchanged. -/
  call : α → PyCall β

/-- The `feature(name, enabled, extra)` decorator applied to a function
(`api.py` 100-112): if `name` is not `None` it replaces `__name__`; `enabled`,
`extra` and `_is_feature` are recorded; the wrapped callable is `func`
itself. -/
def feature {α β : Type} (name : Option String) (enabled : Bool)
    (extra : List (String × String)) (funcName : String)
    (func : α → PyCall β) : Feature α β :=
  { funcName := name.getD funcName
    enabled := enabled
    extra := extra
    is_feature := true
    call := func }

/-- The body of `VCSBackendBase.create` (`api.py` 447-492): the method body is
a docstring only, so calling it returns `None`. -/
def createBody (_ : String) : PyCall (Option Unit) := .ret none

/-- `VCSBackendBase.create` as it exists on the base class: the `create` stub
decorated with `@feature(enabled=False)` (`api.py` 447-448). -/
def VCSBackendBase.create : Feature String (Option Unit) :=
  feature none false [] "create" createBody

/-! ## `api.py` — `ChangedStatus` -/

namespace ChangedStatus

/-- The integer class attributes of `ChangedStatus` (`api.py` 115-132), in
definition order (the order `vars(cls)` iterates them in `to_string`).
`EDITED` is an alias sharing the code of `MODIFIED`. -/
def attrs : List (String × Int) :=
  [("UNCHANGED", 0), ("ADDED", 1), ("REMOVED", 2), ("MODIFIED", 3),
   ("EDITED", 3), ("RENAMED", 10), ("COPIED", 11), ("IGNORED", 98),
   ("UNKNOWN", 99)]

/-- `ChangedStatus.from_string` (`api.py` 134-159):
`getattr(cls, state.upper(), None)` followed by an `isinstance(·, int)` check;
an unknown name raises `AttributeError("Given state {} does not exists")`.
Faithful for ASCII input (`str.upper` agrees with `pyUpper` there);
non-integer class attributes (the conversion methods, dunders) fail the
`isinstance` check, so only the integer attributes can be returned. -/
def from_string (state : String) : Except String Int :=
  match (attrs.find? fun p => p.1 = pyUpper state) with
  | some p => .ok p.2
  | none => .error ("Given state " ++ state ++ " does not exists")

/-- `ChangedStatus.to_string` (`api.py` 161-186): scans `vars(cls)` in
definition order for the first attribute whose value equals `state` and
returns its lowercased name; an unknown code raises
`AttributeError("Given state {} does not exists")`.  Non-integer attributes
(methods, the docstring, dunders) never compare equal to an `int`, so
only the integer attributes above can match. -/
def to_string (state : Int) : Except String String :=
  match (attrs.find? fun p => p.2 = state) with
  | some p => .ok (pyLower p.1)
  | none => .error ("Given state " ++ toString state ++ " does not exists")

/-- The valid integer codes of `ChangedStatus`. -/
def codes : List Int := [0, 1, 2, 3, 10, 11, 98, 99]

/-- The valid lowercase state names named by the specification. -/
def names : List String :=
  ["unchanged", "added", "removed", "modified", "edited", "renamed",
   "copied", "ignored", "unknown"]

end ChangedStatus

/-! ## `backend.py` — Python text helpers

Helpers mirroring the Python string operations used by the parsers.  They are
faithful for ASCII text (`str.strip`/`str.splitlines`/`bytes.lower` agree with
them there); all text handled by the parsers is ASCII tool output. -/

/-- The ASCII whitespace stripped by `str.strip()` / `bytes.lstrip()`. -/
def isPyWs (c : Char) : Bool :=
  c = ' ' ∨ c = '\t' ∨ c = '\n' ∨ c = '\x0d' ∨ c = '\x0b' ∨ c = '\x0c'

/-- `s.lstrip()` on the character list. -/
def pyLstripChars (l : List Char) : List Char := l.dropWhile isPyWs

/-- `s.strip()` on the character list. -/
def pyStripChars (l : List Char) : List Char :=
  ((l.dropWhile isPyWs).reverse.dropWhile isPyWs).reverse

/-- Accumulator pass splitting on `'\n'` (the only line separator occurring in
the parsed tool output). -/
def pySplitAux : List Char → List Char → List (List Char)
  | [], acc => [acc.reverse]
  | '\n' :: rest, acc => acc.reverse :: pySplitAux rest []
  | c :: rest, acc => pySplitAux rest (c :: acc)

/-- `s.splitlines()` for strings whose only line separator is `'\n'`:
splitting on `'\n'` yields one extra empty piece when the string ends with a
newline, which `splitlines` does not produce; the empty string yields `[]`. -/
def pySplitlines (l : List Char) : List (List Char) :=
  if l = [] then []
  else if l.getLast? = some '\n' then (pySplitAux l []).dropLast
  else pySplitAux l []

/-- `pat in s` / `s.find(pat) != -1`: index of the first occurrence of `pat`
in `l`, if any. -/
def findSub (pat : List Char) : List Char → Option Nat
  | [] => if pat = [] then some 0 else none
  | c :: rest =>
    if pat.isPrefixOf (c :: rest) then some 0
    else (findSub pat rest).map (· + 1)

/-! ## `backend.py` — path unescaping (`_parse_change_record`, lines 383-403)

A git-quoted path is decoded by `ast.literal_eval("'" + chunk + "'")` on
chunks of at most 16384 characters.  `pyLiteralEvalChars` embeds the
evaluation of such a single-quoted string literal: `none` is the
`ValueError`/`SyntaxError` the code catches.  The embedding covers Unicode
scalar values; `\N{name}` escapes (which need the external `unicodedata` name
database, and which git's path quoting never emits) and surrogate escapes
(which produce Python strings outside the scalar-value range) are treated as
undecodable. -/

/-- Hexadecimal digit value. -/
def hexVal? (c : Char) : Option Nat :=
  if '0' ≤ c ∧ c ≤ '9' then some (c.toNat - 48)
  else if 'a' ≤ c ∧ c ≤ 'f' then some (c.toNat - 87)
  else if 'A' ≤ c ∧ c ≤ 'F' then some (c.toNat - 55)
  else none

/-- Octal digit value. -/
def octVal? (c : Char) : Option Nat :=
  if '0' ≤ c ∧ c ≤ '7' then some (c.toNat - 48) else none

/-- Evaluation of the body of a single-quoted Python string literal
(`ast.literal_eval("'" + body + "'")`): an unescaped quote, a bare newline or
carriage return, a NUL byte, or a malformed escape is a
`SyntaxError`/`ValueError` (`none`); unknown escapes keep the backslash
verbatim; `\⟨newline⟩` is a line continuation producing nothing. -/
def pyLiteralEvalAux : Nat → List Char → Option (List Char)
  | 0, _ => none
  | _ + 1, [] => some []
  | _ + 1, '\\' :: [] => none
  | fuel + 1, '\\' :: e :: cs =>
    if e = '\n' then pyLiteralEvalAux fuel cs
    else if e = '\\' then (pyLiteralEvalAux fuel cs).map ('\\' :: ·)
    else if e = '\'' then (pyLiteralEvalAux fuel cs).map ('\'' :: ·)
    else if e = '"' then (pyLiteralEvalAux fuel cs).map ('"' :: ·)
    else if e = 'a' then (pyLiteralEvalAux fuel cs).map ('\x07' :: ·)
    else if e = 'b' then (pyLiteralEvalAux fuel cs).map ('\x08' :: ·)
    else if e = 'f' then (pyLiteralEvalAux fuel cs).map ('\x0c' :: ·)
    else if e = 'n' then (pyLiteralEvalAux fuel cs).map ('\n' :: ·)
    else if e = 'r' then (pyLiteralEvalAux fuel cs).map ('\x0d' :: ·)
    else if e = 't' then (pyLiteralEvalAux fuel cs).map ('\t' :: ·)
    else if e = 'v' then (pyLiteralEvalAux fuel cs).map ('\x0b' :: ·)
    else if e = 'x' then
      match cs with
      | h1 :: h2 :: cs' =>
        match hexVal? h1, hexVal? h2 with
        | some a, some b => (pyLiteralEvalAux fuel cs').map (Char.ofNat (16 * a + b) :: ·)
        | _, _ => none
      | _ => none
    else if e = 'u' then
      match cs with
      | h1 :: h2 :: h3 :: h4 :: cs' =>
        match hexVal? h1, hexVal? h2, hexVal? h3, hexVal? h4 with
        | some a, some b, some c, some d =>
          let n := ((a * 16 + b) * 16 + c) * 16 + d
          if Nat.isValidChar n then (pyLiteralEvalAux fuel cs').map (Char.ofNat n :: ·)
          else none
        | _, _, _, _ => none
      | _ => none
    else if e = 'U' then
      match cs with
      | h1 :: h2 :: h3 :: h4 :: h5 :: h6 :: h7 :: h8 :: cs' =>
        match hexVal? h1, hexVal? h2, hexVal? h3, hexVal? h4,
              hexVal? h5, hexVal? h6, hexVal? h7, hexVal? h8 with
        | some a, some b, some c, some d, some a', some b', some c', some d' =>
          let n := ((((((a * 16 + b) * 16 + c) * 16 + d) * 16 + a') * 16 + b')
                      * 16 + c') * 16 + d'
          if Nat.isValidChar n then (pyLiteralEvalAux fuel cs').map (Char.ofNat n :: ·)
          else none
        | _, _, _, _, _, _, _, _ => none
      | _ => none
    else if e = 'N' then none
    else
      match octVal? e with
      | some d0 =>
        match cs with
        | c1 :: cs1 =>
          match octVal? c1 with
          | some d1 =>
            match cs1 with
            | c2 :: cs2 =>
              match octVal? c2 with
              | some d2 =>
                (pyLiteralEvalAux fuel cs2).map (Char.ofNat (64 * d0 + 8 * d1 + d2) :: ·)
              | none => (pyLiteralEvalAux fuel cs1).map (Char.ofNat (8 * d0 + d1) :: ·)
            | [] => some [Char.ofNat (8 * d0 + d1)]
          | none => (pyLiteralEvalAux fuel cs).map (Char.ofNat d0 :: ·)
        | [] => some [Char.ofNat d0]
      | none => (pyLiteralEvalAux fuel cs).map (fun r => '\\' :: e :: r)
  | fuel + 1, c :: cs =>
    if c = '\'' ∨ c = '\n' ∨ c = '\x0d' ∨ c = '\x00' then none
    else (pyLiteralEvalAux fuel cs).map (c :: ·)

/-- Evaluation of the single-quoted literal body: the fuel (one unit per
input character plus one) is always sufficient, since every recursive step
consumes at least one character. -/
def pyLiteralEvalChars (l : List Char) : Option (List Char) :=
  pyLiteralEvalAux (l.length + 1) l

/-- The chunk start offsets of `range(0, n, 16384)` (`backend.py` 395). -/
def chunkStarts (n : Nat) : List Nat :=
  (List.range ((n + 16383) / 16384)).map (· * 16384)

/-- The successive slices `path[i:i+16384]` decoded by the loop at
`backend.py` 395-398. -/
def chunksOfPath (l : List Char) : List (List Char) :=
  (chunkStarts l.length).map fun i => (l.drop i).take 16384

/-- The chunked decode loop (`backend.py` 394-403): each chunk is decoded via
`ast.literal_eval` and the decoded pieces are joined; a failing chunk fails
the whole decode (the caught `ValueError`/`SyntaxError`). -/
def decodeChunked (l : List Char) : Option (List Char) :=
  ((chunksOfPath l).mapM pyLiteralEvalChars).map List.flatten

/-! ## `backend.py` — `GitBackend._parse_change_record` (lines 375-410) -/

/-- One element of the list built by `_parse_change_record`: the state dict
`dict(path=..., kind=..., staged=...)`. -/
structure FileChange where
  path : String
  kind : Int
  staged : Bool
  deriving DecidableEq, Repr

/-- The quote-stripping step (`backend.py` 383-384):
`if len(path) > 3 and path[0] == path[-1] in ("'", '"'): path = path[1:-1]`
(Python chains the comparison: the first and last characters are equal and
the last is a quote character). -/
def pyUnquote (path : List Char) : List Char :=
  if 3 < path.length ∧ path.head? = path.getLast?
      ∧ (path.getLast? = some '\'' ∨ path.getLast? = some '"') then
    (path.drop 1).dropLast
  else path

/-- `GitBackend._parse_change_record` (`backend.py` 375-410) on a 3-element
record `(path, staged, unstaged)`: both states are converted with
`ChangedStatus.from_string` (an invalid state name raises `AttributeError`,
embedded as `none`), the path is unquoted and decoded in chunks (a decode
failure returns `[]`), and one state dict is appended per area whose state is
not `UNCHANGED`, the unstaged one first. -/
def parse_change_record (record : String × String × String) :
    Option (List FileChange) :=
  let (path, staged, unstaged) := record
  match ChangedStatus.from_string staged, ChangedStatus.from_string unstaged with
  | .ok sv, .ok uv =>
    let unescaped := pyUnquote path.data
    match decodeChunked unescaped with
    | none => some []
    | some decoded =>
      let p : String := ⟨decoded⟩
      some ((if uv ≠ 0 then [⟨p, uv, false⟩] else [])
            ++ (if sv ≠ 0 then [⟨p, sv, true⟩] else []))
  | _, _ => none

/-! ## `backend.py` — `get_git_status` parsing (lines 576-656)

The subprocess part of `get_git_status` is external (Process Runner); the
embedded part is the pure parsing of the decoded porcelain output, from
`output.decode().strip().splitlines()` on. -/

/-- `_GIT_STATUS_MAP` (`backend.py` 535-543) restricted to the single-character
keys; the `"??"` entry is only used literally for untracked lines. -/
def GIT_STATUS_MAP : List (Char × String) :=
  [(' ', "UNCHANGED"), ('A', "ADDED"), ('D', "REMOVED"), ('M', "MODIFIED"),
   ('R', "REMOVED"), ('C', "COPIED")]

/-- `_GIT_STATUS_MAP.get(c, "UNKNOWN")`. -/
def statusOf (c : Char) : String :=
  (((GIT_STATUS_MAP.find? fun p => p.1 = c).map fun p => p.2).getD "UNKNOWN")

/-- One iteration of the file-line loop (`backend.py` 626-641).
`none` is the `IndexError` Python would raise on `line[0]`/`line[1]` for a
line shorter than two characters; `some none` is a skipped rename/copy line;
`some (some r)` is an appended `(path, staged, unstaged)` record. -/
def parseStatusFileLine (line : String) :
    Option (Option (String × String × String)) :=
  let l := line.data
  if l.take 2 = ['?', '?'] then
    some (some (⟨l.drop 3⟩, "UNCHANGED", "ADDED"))
  else if ('R' ∈ l.take 2) ∨ ('C' ∈ l.take 2) then
    some none
  else
    match l with
    | c0 :: c1 :: rest =>
      some (some (⟨(c0 :: c1 :: rest).drop 3⟩, statusOf c0, statusOf c1))
    | _ => none

/-- The file-line loop (`backend.py` 626-641): records are accumulated in
order, rename/copy lines are skipped. -/
def processFileLines : List String → Option (List (String × String × String))
  | [] => some []
  | line :: rest =>
    match parseStatusFileLine line with
    | none => none
    | some none => processFileLines rest
    | some (some r) => (processFileLines rest).map (r :: ·)

/-- One step of the directory-aggregation loop (`backend.py` 647-652), for one
area: `if "MODIFIED" != final != change: final = "MODIFIED"` (a chained
comparison: `final` differs from `"MODIFIED"` and from `change`). -/
def aggStep (final change : String) : String :=
  if final ≠ "MODIFIED" ∧ final ≠ change then "MODIFIED" else final

/-- The directory-aggregation block (`backend.py` 643-653): when the path
filter is not `"."` and more than one record matched, all records collapse
into one `(pathspec, staged, unstaged)` record; each area starts from the
first record's state and is folded with `aggStep` over all records. -/
def aggregateIfNeeded (pathspec : String)
    (changes : List (String × String × String)) :
    List (String × String × String) :=
  if pathspec ≠ "." ∧ 1 < changes.length then
    match changes with
    | [] => changes
    | c0 :: _ =>
      [(pathspec,
        changes.foldl (fun f c => aggStep f c.2.1) c0.2.1,
        changes.foldl (fun f c => aggStep f c.2.2) c0.2.2)]
  else changes

/-! ## `backend.py` — the status header regular expression (lines 601-611)

`re.match(r"^## (.+?)(?:\.\.\.(.+?))?(?: \[(.+? \d+)(?:, )?(.+? \d+)?]|(?: \((.+?)\)))?$", line)`
hand-compiled into a backtracking matcher.  Each construct keeps the Python
engine's candidate order: lazy `.+?` expands shortest-first, the greedy `?`
quantifiers try the present alternative first, `\d+` expands longest-first,
alternatives are tried left to right, and the first overall success is the
match (which determines the extracted groups). -/

namespace HeaderRegex

/-- `.` — any character except a newline. -/
def dotc (c : Char) : Bool := c ≠ '\n'

/-- All `(consumed, rest)` splits for `(.+?)`: a nonempty run of `.`-matching
characters, shortest first (lazy expansion order). -/
def lazySplits : List Char → List (List Char × List Char)
  | [] => []
  | c :: cs =>
    if dotc c then ([c], cs) :: (lazySplits cs).map fun p => (c :: p.1, p.2)
    else []

/-- First success over backtracking candidates. -/
def firstSome {α β : Type} (f : α → Option β) : List α → Option β
  | [] => none
  | a :: as =>
    match f a with
    | some b => some b
    | none => firstSome f as

/-- `$` — end of input, or just before a final newline. -/
def atEnd (l : List Char) : Bool := l = [] ∨ l = ['\n']

/-- The five capture groups of the header pattern. -/
structure HeaderGroups where
  g1 : List Char
  g2 : Option (List Char)
  g3 : Option (List Char)
  g4 : Option (List Char)
  g5 : Option (List Char)
  deriving DecidableEq, Repr

/-- All `(consumed, rest)` splits for `\d+`: a nonempty digit run, longest
first (greedy expansion order). -/
def digitSplitsGreedy (l : List Char) : List (List Char × List Char) :=
  let run := (l.takeWhile Char.isDigit).length
  (List.range run).map fun i => (l.take (run - i), l.drop (run - i))

/-- All `(group, rest)` splits for `(.+? \d+)`, in engine order: the lazy
`.+?` shortest-first, then a literal space, then the greedy `\d+`. -/
def matchNumPart (l : List Char) : List (List Char × List Char) :=
  (lazySplits l).flatMap fun p =>
    match p.2 with
    | ' ' :: r2 => (digitSplitsGreedy r2).map fun q => (p.1 ++ ' ' :: q.1, q.2)
    | _ => []

/-- The bracket alternative ` \[(.+? \d+)(?:, )?(.+? \d+)?]` after its
leading `" ["` has been consumed, followed by `$`. -/
def tryBracket (g1 : List Char) (g2 : Option (List Char)) (l : List Char) :
    Option HeaderGroups :=
  firstSome (fun (p : List Char × List Char) =>
    let commaCands : List (List Char) :=
      match p.2 with
      | ',' :: ' ' :: r2 => [r2, p.2]
      | _ => [p.2]
    firstSome (fun rc =>
      let g4Cands : List (Option (List Char) × List Char) :=
        ((matchNumPart rc).map fun q => (some q.1, q.2)) ++ [(none, rc)]
      firstSome (fun gq =>
        match gq.2 with
        | ']' :: rest =>
          if atEnd rest then some ⟨g1, g2, some p.1, gq.1, none⟩ else none
        | _ => none) g4Cands) commaCands) (matchNumPart l)

/-- The parenthesis alternative ` \((.+?)\)` after its leading `" ("` has been
consumed, followed by `$`. -/
def tryParen (g1 : List Char) (g2 : Option (List Char)) (l : List Char) :
    Option HeaderGroups :=
  firstSome (fun (p : List Char × List Char) =>
    match p.2 with
    | ')' :: rest =>
      if atEnd rest then some ⟨g1, g2, none, none, some p.1⟩ else none
    | _ => none) (lazySplits l)

/-- The optional tail `(?: \[...]|(?: \(...\)))?$`: the bracket alternative
first, then the parenthesis alternative, then the absent case. -/
def tryTail (g1 : List Char) (g2 : Option (List Char)) (l : List Char) :
    Option HeaderGroups :=
  let br :=
    match l with
    | ' ' :: '[' :: r => tryBracket g1 g2 r
    | _ => none
  match br with
  | some g => some g
  | none =>
    let pa :=
      match l with
      | ' ' :: '(' :: r => tryParen g1 g2 r
      | _ => none
    match pa with
    | some g => some g
    | none => if atEnd l then some ⟨g1, g2, none, none, none⟩ else none

/-- The optional remote part `(?:\.\.\.(.+?))?` followed by the tail: the
present alternative first (with the lazy group expanding shortest-first),
then the absent case. -/
def tryAfterG1 (g1 : List Char) (l : List Char) : Option HeaderGroups :=
  let present :=
    match l with
    | '.' :: '.' :: '.' :: r =>
      firstSome (fun (p : List Char × List Char) => tryTail g1 (some p.1) p.2)
        (lazySplits r)
    | _ => none
  match present with
  | some g => some g
  | none => tryTail g1 none l

/-- The whole header match: the literal `## `, then the lazy local-branch
group, then the remainder of the pattern. -/
def matchHeader (line : String) : Option HeaderGroups :=
  match line.data with
  | '#' :: '#' :: ' ' :: r =>
    firstSome (fun (p : List Char × List Char) => tryAfterG1 p.1 p.2)
      (lazySplits r)
  | _ => none

end HeaderRegex

/-- `group.rsplit(" ", 1)[-1]`: the text after the last space (the whole
string when it has no space). -/
def afterLastSpace (l : List Char) : List Char :=
  (l.reverse.takeWhile fun c => c ≠ ' ').reverse

/-- `int(s)` for the digit strings produced by the `\d+` part of a matched
count group (always nonempty and all digits, so `int` cannot fail there). -/
def natOfDigits (l : List Char) : Nat :=
  l.foldl (fun n c => 10 * n + (c.toNat - 48)) 0

/-- One iteration of the behind/ahead loop (`backend.py` 617-623): a group is
skipped when absent, sets `behind` when it starts with `"behind"`, and sets
`ahead` when it starts with `"ahead"`, from the integer after its last
space. -/
def applyCountGroup (counts : Nat × Nat) (g : Option (List Char)) : Nat × Nat :=
  match g with
  | none => counts
  | some gc =>
    if "behind".data.isPrefixOf gc then (natOfDigits (afterLastSpace gc), counts.2)
    else if "ahead".data.isPrefixOf gc then (counts.1, natOfDigits (afterLastSpace gc))
    else counts

/-- Result of the parsing part of `get_git_status` (`backend.py` 595-656):
`(local, remote), (behind, ahead), changes`.  `failure` is the
`return None, None, None` reached when the stripped output is empty. -/
inductive GitStatusResult where
  | failure
  | success (localBranch : Option String) (remote : Option String)
      (behind ahead : Nat) (changes : List (String × String × String))
  deriving DecidableEq, Repr

/-- The pure parsing part of `get_git_status` (`backend.py` 595-656) on the
already split lines: when the first line matches the header pattern it is
removed and provides local/remote and the behind/ahead counts, otherwise
local/remote stay `None` and the counts stay `0` and the first line is
processed by the file-line loop like every other line; the records are then
aggregated when the path filter is a directory.  `none` is an uncaught
Python exception (`IndexError` on a file line shorter than two
characters). -/
def parseStatusLines (lines : List String) (pathspec : String) :
    Option GitStatusResult :=
  match lines with
  | [] => some .failure
  | l0 :: rest =>
    let (lines', localRemote, counts) :
        List String × (Option String × Option String) × (Nat × Nat) :=
      match HeaderRegex.matchHeader l0 with
      | some g =>
        (rest, (some ⟨g.g1⟩, g.g2.map fun c => (⟨c⟩ : String)),
         [g.g3, g.g4].foldl applyCountGroup (0, 0))
      | none => (l0 :: rest, (none, none), (0, 0))
    match processFileLines lines' with
    | none => none
    | some changes =>
      some (.success localRemote.1 localRemote.2 counts.1 counts.2
        (aggregateIfNeeded pathspec changes))

/-- `get_git_status`'s parsing from the decoded subprocess output
(`backend.py` 596): `output.decode().strip().splitlines()`, then
`parseStatusLines`. -/
def parseGitStatusOutput (output : String) (pathspec : String) :
    Option GitStatusResult :=
  parseStatusLines ((pySplitlines (pyStripChars output.data)).map fun l => (⟨l⟩ : String))
    pathspec

/-! ## `backend.py` — `GitBackend._parse_history_record` (lines 412-449)

The record dict is embedded as an association list with shadowing: an
assignment `history[k] = v` prepends `(k, v)` and a lookup takes the first
match, which gives Python's overwrite semantics. -/

/-- `history[key] = value`. -/
def dictSet (d : List (String × String)) (k v : String) :
    List (String × String) :=
  (k, v) :: d

/-- `history.get(key, default)`. -/
def dictGet (d : List (String × String)) (k dflt : String) : String :=
  match d.lookup k with
  | some v => v
  | none => dflt

/-- `del history[key]` (and `key in history` is `(d.lookup k).isSome`). -/
def dictDel (d : List (String × String)) (k : String) :
    List (String × String) :=
  d.filter fun p => p.1 ≠ k

/-- `record[i:].strip(b"\x00")`: NUL bytes stripped from both ends
(`backend.py` 424). -/
def stripNul (l : List Char) : List Char :=
  ((l.dropWhile fun c => c = '\x00').reverse.dropWhile fun c => c = '\x00').reverse

/-- The key-line loop of `_parse_history_record` (`backend.py` 427-436):
each nonempty line is compared against the *pending* keys in order; the first
key `k` with `line.startswith(k + ":")` receives the rest of the line and is
removed from the pending list, so it can match at most once. -/
def historyLineLoop : List (List Char) → List String → List (String × String) →
    List (String × String)
  | [], _, hist => hist
  | line :: rest, keys, hist =>
    if line = [] then historyLineLoop rest keys hist
    else
      match keys.find? (fun k => (k.data ++ [':']).isPrefixOf line) with
      | some k =>
        historyLineLoop rest (keys.erase k)
          (dictSet hist k ⟨line.drop (k.length + 1)⟩)
      | none => historyLineLoop rest keys hist

/-- The expected keys: `get_last_commits.extra["attrs"]` (`backend.py`
330-334) as a list with `"description"` removed (`backend.py` 415-416). -/
def historyKeys : List String :=
  ["id", "title", "content", "author_username", "author_email", "commit_date"]

/-- The literal marker `b"\ndescription:\n"` introducing the description
section (`backend.py` 418); its length is the `14` added to the found
index. -/
def descMarker : List Char := "\ndescription:\n".data

/-- The marker search of `_parse_history_record` (`backend.py` 418-425):
when the marker is found at index `i`, the NUL-stripped text after
`i + 14` becomes the description and the text before `i` remains for the
key-line loop; otherwise the description stays empty and the whole record
remains.  The initial dict is `{"description": ""}` (`backend.py` 417). -/
def descSplit (r : List Char) : List (String × String) × List Char :=
  let hist0 := dictSet [] "description" ""
  match findSub descMarker r with
  | some i => (dictSet hist0 "description" ⟨stripNul (r.drop (i + 14))⟩, r.take i)
  | none => (hist0, r)

/-- The tail of `_parse_history_record` (`backend.py` 427-447) after the
marker split: the key-line loop over the pre-marker lines, the derivation
`content = title + "\n" + description`, and the `commit_date` handling —
an all-digit value is converted to a timestamp (embedded as keeping the
digit string, which determines the timestamp), any other present value is
deleted. -/
def historyFinish : List (String × String) × List Char → List (String × String)
  | (hist1, pre) =>
    let hist2 := historyLineLoop (pySplitlines pre) historyKeys hist1
    let hist3 :=
      dictSet hist2 "content"
        (dictGet hist2 "title" "" ++ "\n" ++ dictGet hist2 "description" "")
    let cd := dictGet hist3 "commit_date" ""
    if cd.data ≠ [] ∧ cd.data.all Char.isDigit then
      dictSet hist3 "commit_date" cd
    else if (hist3.lookup "commit_date").isSome then
      dictDel hist3 "commit_date"
    else hist3

/-- `GitBackend._parse_history_record` (`backend.py` 412-449) on the record
characters: left-strip the record; an empty record yields `{}`; otherwise
split at the first `"\ndescription:\n"` marker and finish. -/
def parse_history_record_chars (record : List Char) : List (String × String) :=
  let r := pyLstripChars record
  if r = [] then []
  else historyFinish (descSplit r)

/-- `GitBackend._parse_history_record` (`backend.py` 412-449). -/
def parse_history_record (record : String) : List (String × String) :=
  parse_history_record_chars record.data

/-! ## `backend.py` — `git_remote_operation_posix` (lines 710-772)

The interactive credential session.  The `pexpect` subprocess is external; the
embedding records what the session observes of it at each step (the outcome
of each `expect` call, liveness, exit/signal status and the captured
`before` text at the points where the code reads them) and mirrors the
function's control flow over those observations. -/

/-- Outcome of a `proc.expect([pattern, pexpect.EOF, pexpect.TIMEOUT])`
call: the pattern matched, EOF was seen, or the call timed out. -/
inductive ExpectRes where
  | matched
  | eofSeen
  | timedOut
  deriving DecidableEq, Repr

/-- What the session observes of the spawned `git` subprocess. -/
structure PexpectProc where
  /-- Outcome of `expect(["Username for .+:", EOF, TIMEOUT])`. -/
  expectUser : ExpectRes
  /-- `proc.isalive()` right after the first expect. -/
  aliveAfterUser : Bool
  /-- `proc.signalstatus` right after the first expect (`None` or signal). -/
  sigAfterUser : Option Nat
  /-- `proc.exitstatus` right after the first expect (`None` while alive). -/
  exitAfterUser : Option Nat
  /-- `proc.before` right after the first expect. -/
  beforeAfterUser : String
  /-- Outcome of `expect(["Password for .+:", EOF, TIMEOUT])`. -/
  expectPass : ExpectRes
  /-- `proc.exitstatus` after the final expect and `wait()`. -/
  exitFinal : Option Nat
  /-- `proc.signalstatus` after the final expect and `wait()`. -/
  sigFinal : Option Nat
  /-- `proc.before` after the final expect. -/
  beforeFinal : String

/-- Python truthiness of an exit/signal status (`None` and `0` are falsy). -/
def pyTruthyStatus : Option Nat → Bool
  | none => false
  | some n => n ≠ 0

/-- The value `git_remote_operation_posix` returns: `True` (success),
`False` (wrong credentials), `None`, or the captured `proc.before` text
(`_remote_operation` treats the last two as an unexpected failure). -/
inductive RemoteOpResult where
  | retTrue
  | retFalse
  | retNone
  | retMsg (m : String)
  deriving DecidableEq, Repr

/-- `message.lower().find(b"http basic: access denied") != -1`
(`backend.py` 767): a case-insensitive substring test, via the ASCII
`bytes.lower`. -/
def containsAccessDenied (m : String) : Bool :=
  (findSub "http basic: access denied".data (pyLower m).data).isSome

/-- `git_remote_operation_posix` (`backend.py` 736-771) after the subprocess
is spawned: if the username prompt appears, the username is sent; otherwise,
if the process is no longer alive, it is classified by signal then exit
status; otherwise the flow falls through to the password expect.  Then the
password prompt must appear or the call returns `None`.  After the final
expect and `wait()`, a falsy exit and signal status mean `True`; otherwise
the captured text decides between `False` (access-denied marker present) and
returning the text itself. -/
def git_remote_operation_posix (proc : PexpectProc) : RemoteOpResult :=
  if proc.expectUser ≠ .matched ∧ proc.aliveAfterUser = false then
    if pyTruthyStatus proc.sigAfterUser then .retNone
    else if pyTruthyStatus proc.exitAfterUser then .retMsg proc.beforeAfterUser
    else .retTrue
  else
    if proc.expectPass ≠ .matched then .retNone
    else
      if ¬ (pyTruthyStatus proc.exitFinal ∨ pyTruthyStatus proc.sigFinal) then
        .retTrue
      else if containsAccessDenied proc.beforeFinal then .retFalse
      else .retMsg proc.beforeFinal

/-- A run observed to hit EOF at the username prompt with the process
already gone, no signal, and exit status `0` (the never-prompting
zero-exit run). -/
def eofZeroExitRun : PexpectProc :=
  { expectUser := .eofSeen
    aliveAfterUser := false
    sigAfterUser := none
    exitAfterUser := some 0
    beforeAfterUser := ""
    expectPass := .timedOut
    exitFinal := some 0
    sigFinal := none
    beforeFinal := "" }

/-- The four credential attributes of `VCSAuthError` by name (`errors.py`
188-191); names outside the credential fields are reads of never-assigned
slots, which `getattr(·, ·, None)` maps to `None`. -/
def VCSAuthError.credentialField (e : VCSAuthError) : String → Option String
  | "username" => e.username
  | "password" => e.password
  | "email" => e.email
  | "token" => e.token
  | _ => none

/-- A concrete pre-marker section of a history record in the format produced
by the `--pretty` format string of `get_last_commits` (`backend.py`
344-354): the `id`, `author_username`, `author_email`, `commit_date` and
`title` lines that precede the `"\ndescription:\n"` marker. -/
def histPre : List Char :=
  "id:abc\nauthor_username:usr\nauthor_email:e@x\ncommit_date:100\ntitle:Hello".data

/-!
# Theorems

One theorem per claim of the specification, with supporting lemmas.
-/

/-- C3 (counterexample): the name round-trip fails at `"edited"`:
`from_string "edited"` is the code `3`, `to_string 3` scans the class
attributes in definition order and hits `MODIFIED` before the alias
`EDITED`, so the round-trip returns `"modified"`, not `"edited"`. -/
theorem to_string_from_string_edited :
    ChangedStatus.from_string "edited" = .ok 3 ∧
    ChangedStatus.to_string 3 = .ok "modified" ∧
    ("modified" : String) ≠ "edited" := by
  refine ⟨by decide, by decide, by decide⟩

/-- C3 (amended): `from_string (to_string v) = v` for every valid code;
`to_string (from_string n) = n` for every valid lowercase name except the
alias `"edited"`, which round-trips to `"modified"`; an unknown name or an
unknown integer code raises the descriptive
`AttributeError("Given state {} does not exists")`. -/
theorem changedstatus_conversion_roundtrip :
    (∀ v ∈ ChangedStatus.codes,
       (ChangedStatus.to_string v).bind (fun n => ChangedStatus.from_string n)
         = .ok v) ∧
    (∀ n ∈ (["unchanged", "added", "removed", "modified", "renamed",
             "copied", "ignored", "unknown"] : List String),
       (ChangedStatus.from_string n).bind (fun v => ChangedStatus.to_string v)
         = .ok n) ∧
    ((ChangedStatus.from_string "edited").bind
        (fun v => ChangedStatus.to_string v) = .ok "modified") ∧
    (∀ s : String, (∀ p ∈ ChangedStatus.attrs, p.1 ≠ pyUpper s) →
       ChangedStatus.from_string s
         = .error ("Given state " ++ s ++ " does not exists")) ∧
    (∀ v : Int, v ∉ ChangedStatus.codes →
       ChangedStatus.to_string v
         = .error ("Given state " ++ toString v ++ " does not exists")) := by
  refine ⟨?_, ?_, by decide, ?_, ?_⟩
  · intro v hv
    fin_cases hv <;> decide
  · intro n hn
    fin_cases hn <;> decide
  · intro s hs
    have hfind : ChangedStatus.attrs.find? (fun p => p.1 = pyUpper s) = none := by
      rw [List.find?_eq_none]
      intro p hp
      simpa using hs p hp
    simp [ChangedStatus.from_string, hfind]
  · intro v hv
    have hfind : ChangedStatus.attrs.find? (fun p => p.2 = v) = none := by
      rw [List.find?_eq_none]
      intro p hp hpv
      apply hv
      fin_cases hp <;>
        simp_all [ChangedStatus.codes]
    simp [ChangedStatus.to_string, hfind]

/-- C3 (witness): the amended round-trip at concrete inputs. -/
theorem changedstatus_conversion_roundtrip_witness :
    (ChangedStatus.to_string 3).bind (fun n => ChangedStatus.from_string n)
        = .ok 3 ∧
    (ChangedStatus.from_string "added").bind (fun v => ChangedStatus.to_string v)
        = .ok "added" ∧
    ChangedStatus.from_string "bogus"
        = .error "Given state bogus does not exists" ∧
    ChangedStatus.to_string 5 = .error "Given state 5 does not exists" :=
  ⟨changedstatus_conversion_roundtrip.1 3 (by decide),
   changedstatus_conversion_roundtrip.2.1 "added" (by decide),
   changedstatus_conversion_roundtrip.2.2.2.1 "bogus" (by decide),
   changedstatus_conversion_roundtrip.2.2.2.2 5 (by decide)⟩

/-- C10: `are_credentials_inserted` is `True` exactly when every credential
field named in `required_credentials` is `None` on the exception — i.e.
despite its name, it is `True` precisely when none of the required
credentials were supplied, and `False` whenever all of them were
supplied (and at least one is required). -/
theorem are_credentials_inserted_iff (e : VCSAuthError)
    (hreq : ∀ k ∈ e.required_credentials,
      k ∈ (["username", "password", "email", "token"] : List String)) :
    (e.are_credentials_inserted = true ↔
      ∀ k ∈ e.required_credentials, e.credentialField k = none) ∧
    (e.required_credentials ≠ [] →
      (∀ k ∈ e.required_credentials, (e.credentialField k).isSome) →
      e.are_credentials_inserted = false) := by
  have hfield : ∀ k ∈ e.required_credentials,
      e.attrIsNone k = (e.credentialField k).isNone := by
    intro k hk
    have hmem := hreq k hk
    fin_cases hmem <;> rfl
  have hiff : e.are_credentials_inserted = true ↔
      ∀ k ∈ e.required_credentials, e.credentialField k = none := by
    rw [VCSAuthError.are_credentials_inserted, List.all_eq_true]
    constructor
    · intro h k hk
      have hk' := h k hk
      rw [hfield k hk] at hk'
      exact Option.isNone_iff_eq_none.mp hk'
    · intro h k hk
      rw [hfield k hk, h k hk]
      rfl
  refine ⟨hiff, ?_⟩
  intro hne hsome
  cases hb : e.are_credentials_inserted with
  | false => rfl
  | true =>
    exfalso
    obtain ⟨k0, rest, hl⟩ : ∃ k l, e.required_credentials = k :: l := by
      cases hl : e.required_credentials with
      | nil => exact absurd hl hne
      | cons a l => exact ⟨a, l, rfl⟩
    have hk0 : k0 ∈ e.required_credentials := by
      rw [hl]; exact List.mem_cons_self _ _
    have h1 := hiff.mp hb k0 hk0
    have h2 := hsome k0 hk0
    rw [h1] at h2
    simp at h2

/-- C10 (witness): a `VCSAuthError` requiring username and password with
neither supplied reports `True`; one with both supplied reports `False`. -/
theorem are_credentials_inserted_iff_witness :
    (VCSAuthError.are_credentials_inserted
        { required_credentials := ["username", "password"] } = true) ∧
    (VCSAuthError.are_credentials_inserted
        { required_credentials := ["username", "password"],
          username := some "u", password := some "p" } = false) :=
  ⟨(are_credentials_inserted_iff
      { required_credentials := ["username", "password"] }
      (by decide)).1.mpr (by decide),
   (are_credentials_inserted_iff
      { required_credentials := ["username", "password"],
        username := some "u", password := some "p" }
      (by decide)).2 (by decide) (by decide)⟩

/-- C2: the `feature` decorator's documentation promises that calling a
feature decorated with `enabled=False` raises `NotImplementedError`, but the
decorator does not wrap the call: invoking the disabled base-class `create`
silently returns `None` instead of raising. -/
theorem disabled_feature_call_returns_none :
    VCSBackendBase.create.enabled = false ∧
    VCSBackendBase.create.call "/tmp/new_repo" = .ret none ∧
    ∀ msg : String,
      VCSBackendBase.create.call "/tmp/new_repo"
        ≠ .raised "NotImplementedError" msg := by
  refine ⟨rfl, rfl, ?_⟩
  intro msg h
  cases h

/-- Probing skips over a leading segment of recoverable construction failures
(`VCSBackendFail` or any other `VCSError`). -/
theorem bindLoop_append_recoverable {β : Type} (path : String)
    (pre rest : List (String → CtorResult β))
    (h : ∀ c ∈ pre, (c path).recoverable) :
    bindLoop path (pre ++ rest) = bindLoop path rest := by
  induction pre with
  | nil => rfl
  | cons c pre ih =>
    have hc := h c (List.mem_cons_self _ _)
    have hrest : ∀ c' ∈ pre, (c' path).recoverable := fun c' hc' =>
      h c' (List.mem_cons_of_mem _ hc')
    rw [List.cons_append]
    cases hcp : c path with
    | ok b => rw [hcp] at hc; cases hc
    | throwOther => rw [hcp] at hc; cases hc
    | throwBackendFail => simp only [bindLoop, hcp]; exact ih hrest
    | throwVCSError => simp only [bindLoop, hcp]; exact ih hrest

/-- C1 (counterexample): a constructor that raises a `VCSError` other than
`VCSBackendFail` does *not* propagate — the next constructor is tried and may
become the active backend: with a first constructor raising such an error and
a second constructing successfully, `bind` activates the second instead of
propagating or failing. -/
theorem repodir_setter_vcserror_swallowed :
    repodirSetter "repo"
        [fun _ => (CtorResult.throwVCSError : CtorResult Nat), fun _ => .ok 0]
      = .bound 0 ∧
    (BindOutcome.bound 0 ≠ (BindOutcome.propagated : BindOutcome Nat)) ∧
    (BindOutcome.bound 0 ≠ (BindOutcome.raisedNoValidBackend : BindOutcome Nat)) := by
  refine ⟨rfl, by decide, by decide⟩

/-- C1 (amended): for a non-empty path, `bind` attempts construction in
registration order; a constructor that raises `VCSBackendFail` *or any other
`VCSError`* causes the next constructor to be tried; an exception outside
the `VCSError` hierarchy propagates immediately without trying further
backends; the first constructor that returns successfully becomes the active
backend; if every constructor fails recoverably, `bind` raises the
"Valid backend not found for the given directory" error. -/
theorem repodir_setter_probing {β : Type} (path : String) (hpath : path ≠ "") :
    (∀ (pre post : List (String → CtorResult β))
       (ctor : String → CtorResult β) (b : β),
       (∀ c ∈ pre, (c path).recoverable) → ctor path = .ok b →
       repodirSetter path (pre ++ ctor :: post) = .bound b) ∧
    (∀ (pre post : List (String → CtorResult β))
       (ctor : String → CtorResult β),
       (∀ c ∈ pre, (c path).recoverable) → ctor path = .throwOther →
       repodirSetter path (pre ++ ctor :: post) = .propagated) ∧
    (∀ backends : List (String → CtorResult β),
       (∀ c ∈ backends, (c path).recoverable) →
       repodirSetter path backends = .raisedNoValidBackend) := by
  have hset : ∀ backends : List (String → CtorResult β),
      repodirSetter path backends = bindLoop path backends := by
    intro backends
    rw [repodirSetter, if_neg hpath]
  refine ⟨?_, ?_, ?_⟩
  · intro pre post ctor b hpre hctor
    rw [hset, bindLoop_append_recoverable path pre _ hpre]
    simp only [bindLoop, hctor]
  · intro pre post ctor hpre hctor
    rw [hset, bindLoop_append_recoverable path pre _ hpre]
    simp only [bindLoop, hctor]
  · intro backends hall
    rw [hset, ← List.append_nil backends,
      bindLoop_append_recoverable path backends [] hall]
    rfl

/-- C1 (witness): with a `VCSBackendFail`-raising constructor first, a
successful constructor is activated; with only recoverable failures, the
"no valid backend" error is raised; an unrelated exception propagates. -/
theorem repodir_setter_probing_witness :
    repodirSetter "repo"
        [fun _ => (CtorResult.throwBackendFail : CtorResult Nat), fun _ => .ok 7]
      = .bound 7 ∧
    repodirSetter "repo"
        [fun _ => (CtorResult.throwBackendFail : CtorResult Nat),
         fun _ => .throwBackendFail]
      = .raisedNoValidBackend ∧
    repodirSetter "repo"
        [fun _ => (CtorResult.throwBackendFail : CtorResult Nat),
         fun _ => .throwOther, fun _ => .ok 7]
      = .propagated :=
  ⟨(repodir_setter_probing "repo" (by decide)).1
      [fun _ => .throwBackendFail] [] (fun _ => .ok 7) 7
      (by intro c hc; fin_cases hc; trivial) rfl,
   (repodir_setter_probing "repo" (by decide)).2.2
      [fun _ => .throwBackendFail, fun _ => .throwBackendFail]
      (by intro c hc; fin_cases hc <;> trivial),
   (repodir_setter_probing "repo" (by decide)).2.1
      [fun _ => .throwBackendFail] [fun _ => .ok 7] (fun _ => .throwOther)
      (by intro c hc; fin_cases hc; trivial) rfl⟩

/-- C4 (counterexample): a run that hits EOF at the username prompt with the
process exited normally with status zero is classified `True` (Success), not
`Unexpected` (`None` or the captured text), contradicting the claim's
unqualified "EOF at the username prompt yields Unexpected". -/
theorem remote_op_eof_zero_exit :
    git_remote_operation_posix eofZeroExitRun = .retTrue ∧
    (RemoteOpResult.retTrue ≠ .retNone) ∧
    (RemoteOpResult.retTrue ≠ .retMsg "") := by
  refine ⟨rfl, by decide, by decide⟩

/-- C4 (amended): a run that exits with status zero and no signal without
ever prompting yields `True` (Success); a run that prompts for username then
password and exits non-zero with captured output containing the
case-insensitive marker `"http basic: access denied"` yields `False`
(AuthFailed); a run that times out at the username prompt (the process still
alive and no password prompt ever observed) yields `None` (Unexpected); a
run that hits EOF at the username prompt yields Unexpected when the process
was killed by a signal or exited non-zero (`None`, or the captured output),
and Success when it exited zero. -/
theorem remote_op_classification :
    (∀ p : PexpectProc, p.expectUser = .eofSeen → p.aliveAfterUser = false →
       p.sigAfterUser = none → p.exitAfterUser = some 0 →
       git_remote_operation_posix p = .retTrue) ∧
    (∀ p : PexpectProc, p.expectUser = .matched → p.expectPass = .matched →
       pyTruthyStatus p.exitFinal = true →
       containsAccessDenied p.beforeFinal = true →
       git_remote_operation_posix p = .retFalse) ∧
    (∀ p : PexpectProc, p.expectUser = .timedOut → p.aliveAfterUser = true →
       p.expectPass ≠ .matched →
       git_remote_operation_posix p = .retNone) ∧
    (∀ p : PexpectProc, p.expectUser = .eofSeen → p.aliveAfterUser = false →
       (pyTruthyStatus p.sigAfterUser = true ∨
        pyTruthyStatus p.exitAfterUser = true) →
       git_remote_operation_posix p = .retNone ∨
         git_remote_operation_posix p = .retMsg p.beforeAfterUser) := by
  refine ⟨?_, ?_, ?_, ?_⟩
  · intro p h1 h2 h3 h4
    simp [git_remote_operation_posix, h1, h2, h3, h4, pyTruthyStatus]
  · intro p h1 h2 h3 h4
    simp [git_remote_operation_posix, h1, h2, h3, h4]
  · intro p h1 h2 h3
    simp [git_remote_operation_posix, h1, h2, h3]
  · intro p h1 h2 h3
    rcases h3 with h3 | h3
    · left; simp [git_remote_operation_posix, h1, h2, h3]
    · by_cases hsig : pyTruthyStatus p.sigAfterUser
      · left; simp [git_remote_operation_posix, h1, h2, hsig]
      · right; simp [git_remote_operation_posix, h1, h2, h3, hsig]

/-- C4 (witness): the amended classification at concrete runs. -/
theorem remote_op_classification_witness :
    git_remote_operation_posix eofZeroExitRun = .retTrue ∧
    git_remote_operation_posix
        { eofZeroExitRun with
          expectUser := .matched, expectPass := .matched,
          exitFinal := some 128,
          beforeFinal := "remote: HTTP Basic: Access denied" } = .retFalse ∧
    git_remote_operation_posix
        { eofZeroExitRun with
          expectUser := .timedOut, aliveAfterUser := true,
          expectPass := .timedOut } = .retNone ∧
    git_remote_operation_posix
        { eofZeroExitRun with
          exitAfterUser := some 1,
          beforeAfterUser := "fatal: not a repository" }
      = .retMsg "fatal: not a repository" := by
  refine ⟨remote_op_classification.1 eofZeroExitRun rfl rfl rfl rfl,
    remote_op_classification.2.1 _ rfl rfl rfl (by decide), ?_, ?_⟩
  · exact remote_op_classification.2.2.1 _ rfl rfl (by decide)
  · have h := remote_op_classification.2.2.2
      { eofZeroExitRun with
        exitAfterUser := some 1,
        beforeAfterUser := "fatal: not a repository" }
      rfl rfl (Or.inr (by decide))
    rcases h with h | h
    · exact absurd h (by decide)
    · exact h

/-- C5: a parsed `(path, staged, unstaged)` record expands into exactly one
`FileChange` per area whose state is not `unchanged` (the unstaged one
first) and none when both areas are unchanged; the untracked line
`"?? new_file.txt"` yields exactly
`FileChange {path := "new_file.txt", kind := added, staged := false}`, and a
`"M "` line yields exactly one staged modified `FileChange`. -/
theorem change_record_expansion :
    (∀ (path staged unstaged : String) (sv uv : Int) (decoded : List Char),
       ChangedStatus.from_string staged = .ok sv →
       ChangedStatus.from_string unstaged = .ok uv →
       decodeChunked (pyUnquote path.data) = some decoded →
       parse_change_record (path, staged, unstaged) =
         some ((if uv ≠ 0 then [⟨⟨decoded⟩, uv, false⟩] else [])
               ++ (if sv ≠ 0 then [⟨⟨decoded⟩, sv, true⟩] else []))) ∧
    (processFileLines ["?? new_file.txt"]
       = some [("new_file.txt", "UNCHANGED", "ADDED")] ∧
     parse_change_record ("new_file.txt", "UNCHANGED", "ADDED")
       = some [⟨"new_file.txt", 1, false⟩]) ∧
    (processFileLines ["M  file.txt"]
       = some [("file.txt", "MODIFIED", "UNCHANGED")] ∧
     parse_change_record ("file.txt", "MODIFIED", "UNCHANGED")
       = some [⟨"file.txt", 3, true⟩]) := by
  refine ⟨?_, ⟨by decide, by decide⟩, ⟨by decide, by decide⟩⟩
  intro path staged unstaged sv uv decoded hs hu hd
  simp only [parse_change_record, hs, hu, hd]

/-- C5 (witness): the expansion at a concrete record with both areas
changed. -/
theorem change_record_expansion_witness :
    parse_change_record ("x", "ADDED", "REMOVED") =
      some ((if (2 : Int) ≠ 0 then [⟨⟨['x']⟩, 2, false⟩] else [])
            ++ (if (1 : Int) ≠ 0 then [⟨⟨['x']⟩, 1, true⟩] else [])) :=
  change_record_expansion.1 "x" "ADDED" "REMOVED" 1 2 ['x']
    (by decide) (by decide) (by decide)

/-- C7: the header line `"## main...origin/main [ahead 2, behind 1]"` parses
to local `"main"`, remote `"origin/main"`, behind 1 and ahead 2; and for
every first line that does not match the header pattern, local and remote
stay absent, both counts stay zero, and the file-line loop (with the
directory aggregation) still runs over all the lines, the first included. -/
theorem status_header_parsing :
    (parseStatusLines ["## main...origin/main [ahead 2, behind 1]"] "." =
       some (.success (some "main") (some "origin/main") 1 2 [])) ∧
    (∀ (l0 : String) (rest : List String) (pathspec : String),
       HeaderRegex.matchHeader l0 = none →
       parseStatusLines (l0 :: rest) pathspec =
         match processFileLines (l0 :: rest) with
         | none => none
         | some changes =>
           some (.success none none 0 0 (aggregateIfNeeded pathspec changes))) := by
  constructor
  · rfl
  · intro l0 rest pathspec h
    simp only [parseStatusLines, h]

/-- C7 (witness): a non-header first line is handled by the file-line loop
itself. -/
theorem status_header_parsing_witness :
    parseStatusLines ["A  first.txt", "M  b.txt"] "." =
      match processFileLines ["A  first.txt", "M  b.txt"] with
      | none => none
      | some changes =>
        some (.success none none 0 0 (aggregateIfNeeded "." changes)) :=
  status_header_parsing.2 "A  first.txt" ["M  b.txt"] "." (by rfl)

/-- Folding `aggStep` from `"MODIFIED"` stays `"MODIFIED"` (the chained
comparison blocks any further change). -/
theorem foldl_aggStep_modified (l : List String) :
    l.foldl aggStep "MODIFIED" = "MODIFIED" := by
  induction l with
  | nil => rfl
  | cons c l ih => simpa [aggStep] using ih

/-- Folding `aggStep` from the first element yields the common value when
all elements agree with it and `"MODIFIED"` otherwise. -/
theorem foldl_aggStep_eq (h : String) (l : List String) :
    l.foldl aggStep h = if ∀ c ∈ l, c = h then h else "MODIFIED" := by
  by_cases hm : h = "MODIFIED"
  · subst hm
    rw [foldl_aggStep_modified]
    split <;> rfl
  · induction l with
    | nil => simp
    | cons c l ih =>
      by_cases hc : c = h
      · subst hc
        rw [List.foldl_cons, show aggStep c c = c from by simp [aggStep]]
        rw [ih]
        simp
      · rw [List.foldl_cons, show aggStep h c = "MODIFIED" from by
          simp [aggStep, hm, Ne.symm hc], foldl_aggStep_modified]
        have : ¬ ∀ x ∈ c :: l, x = h := by
          intro hall
          exact hc (hall c (List.mem_cons_self _ _))
        rw [if_neg this]

/-- Folding `aggStep` over the first projection of the records equals
folding it over the projected list. -/
theorem foldl_aggStep_staged (init : String)
    (l : List (String × String × String)) :
    l.foldl (fun a c => aggStep a c.2.1) init
      = (l.map fun c => c.2.1).foldl aggStep init := by
  induction l generalizing init with
  | nil => rfl
  | cons c l ih => simp [List.foldl_cons, ih]

/-- Folding `aggStep` over the second projection of the records equals
folding it over the projected list. -/
theorem foldl_aggStep_unstaged (init : String)
    (l : List (String × String × String)) :
    l.foldl (fun a c => aggStep a c.2.2) init
      = (l.map fun c => c.2.2).foldl aggStep init := by
  induction l generalizing init with
  | nil => rfl
  | cons c l ih => simp [List.foldl_cons, ih]

/-- C6 (counterexample): under the directory filter `"dir"`, one
modified/staged line and one added/unstaged line aggregate to a record whose
*unstaged* kind is `"MODIFIED"`, not `"ADDED"` as the claim states — in the
unstaged area the two records carry `UNCHANGED` and `ADDED`, which disagree,
so the disagreement rule makes that area `"MODIFIED"` too. -/
theorem dir_aggregation_unstaged_modified :
    parseStatusLines ["## main", "M  dir/a.txt", " A dir/b.txt"] "dir" =
      some (.success (some "main") none 0 0 [("dir", "MODIFIED", "MODIFIED")]) ∧
    ("MODIFIED" : String) ≠ "ADDED" := by
  exact ⟨by rfl, by decide⟩

/-- C6 (amended): when the path filter is a directory (not `"."`) and more
than one record matched, the records collapse into one synthetic record whose
kind in each area (staged and unstaged independently) is the common kind when
all records agree in that area and `"MODIFIED"` when they disagree; in the
modified/staged + added/unstaged example both areas disagree (`MODIFIED` vs
`UNCHANGED` staged, `UNCHANGED` vs `ADDED` unstaged), so both aggregate to
`"MODIFIED"`. -/
theorem dir_aggregation_rule :
    (∀ (pathspec : String) (c0 : String × String × String)
       (rest : List (String × String × String)),
       pathspec ≠ "." → rest ≠ [] →
       aggregateIfNeeded pathspec (c0 :: rest) =
         [(pathspec,
           (if ∀ c ∈ c0 :: rest, c.2.1 = c0.2.1 then c0.2.1 else "MODIFIED"),
           (if ∀ c ∈ c0 :: rest, c.2.2 = c0.2.2 then c0.2.2 else "MODIFIED"))]) ∧
    (aggregateIfNeeded "dir"
        [("a.txt", "MODIFIED", "UNCHANGED"), ("b.txt", "UNCHANGED", "ADDED")]
       = [("dir", "MODIFIED", "MODIFIED")]) := by
  refine ⟨?_, by decide⟩
  intro pathspec c0 rest hps hrest
  have hlen : 1 < (c0 :: rest).length := by
    cases rest with
    | nil => exact absurd rfl hrest
    | cons a l => simp [List.length_cons]
  rw [aggregateIfNeeded, if_pos ⟨hps, hlen⟩]
  have h1 : (c0 :: rest).foldl (fun f c => aggStep f c.2.1) c0.2.1
      = if ∀ c ∈ c0 :: rest, c.2.1 = c0.2.1 then c0.2.1 else "MODIFIED" := by
    rw [foldl_aggStep_staged, foldl_aggStep_eq]
    simp only [List.forall_mem_map]
  have h2 : (c0 :: rest).foldl (fun f c => aggStep f c.2.2) c0.2.2
      = if ∀ c ∈ c0 :: rest, c.2.2 = c0.2.2 then c0.2.2 else "MODIFIED" := by
    rw [foldl_aggStep_unstaged, foldl_aggStep_eq]
    simp only [List.forall_mem_map]
  rw [h1, h2]

/-- C6 (witness): aggregation of two staged-modified records that agree in
the staged area but disagree in the unstaged area. -/
theorem dir_aggregation_rule_witness :
    aggregateIfNeeded "sub"
        [("a", "MODIFIED", "UNCHANGED"), ("b", "MODIFIED", "ADDED")] =
      [("sub",
        (if ∀ c ∈ [(("a" : String), ("MODIFIED" : String), ("UNCHANGED" : String)),
                   ("b", "MODIFIED", "ADDED")], c.2.1 = "MODIFIED"
         then "MODIFIED" else "MODIFIED"),
        (if ∀ c ∈ [(("a" : String), ("MODIFIED" : String), ("UNCHANGED" : String)),
                   ("b", "MODIFIED", "ADDED")], c.2.2 = "UNCHANGED"
         then "UNCHANGED" else "MODIFIED"))] :=
  dir_aggregation_rule.1 "sub" ("a", "MODIFIED", "UNCHANGED")
    [("b", "MODIFIED", "ADDED")] (by decide) (by decide)


/-- Joining the bounded slices of the chunk loop restores the input list. -/
theorem chunk_slices_flatten (k : Nat) :
    ∀ l : List Char, l.length ≤ k * 16384 →
      ((List.range k).map fun j => (l.drop (j * 16384)).take 16384).flatten = l := by
  induction k with
  | zero =>
    intro l hl
    have : l = [] := List.eq_nil_of_length_eq_zero (Nat.le_zero.mp hl)
    subst this
    rfl
  | succ k ih =>
    intro l hl
    rw [List.range_succ_eq_map, List.map_cons, List.flatten_cons, List.map_map]
    have hmap : (List.range k).map ((fun j => (l.drop (j * 16384)).take 16384) ∘ Nat.succ)
        = (List.range k).map fun j => ((l.drop 16384).drop (j * 16384)).take 16384 := by
      apply List.map_congr_left
      intro j _
      show (l.drop (Nat.succ j * 16384)).take 16384 = _
      rw [List.drop_drop]
      congr 2
      omega
    have hlen : (l.drop 16384).length ≤ k * 16384 := by
      rw [List.length_drop]; omega
    rw [hmap, ih (l.drop 16384) hlen]
    simp [List.take_append_drop]

/-- C9: the quoted-path decode works in bounded chunks — the decoded pieces
are slices of length at most 16384 that cover the whole escaped path, and
the decode is exactly the per-chunk `ast.literal_eval` fold; a record whose
escaped path fails to decode yields zero `FileChange` records (the caught
`ValueError`/`SyntaxError`) instead of an uncaught exception. -/
theorem chunked_unescape_safety :
    (∀ l : List Char,
       (∀ c ∈ chunksOfPath l, c.length ≤ 16384) ∧
       (chunksOfPath l).flatten = l ∧
       decodeChunked l
         = ((chunksOfPath l).mapM pyLiteralEvalChars).map List.flatten) ∧
    (∀ (path staged unstaged : String) (sv uv : Int),
       ChangedStatus.from_string staged = .ok sv →
       ChangedStatus.from_string unstaged = .ok uv →
       decodeChunked (pyUnquote path.data) = none →
       parse_change_record (path, staged, unstaged) = some []) := by
  constructor
  · intro l
    refine ⟨?_, ?_, rfl⟩
    · intro c hc
      rw [chunksOfPath] at hc
      obtain ⟨i, _, rfl⟩ := List.mem_map.mp hc
      rw [List.length_take]
      omega
    · have hcover : l.length ≤ ((l.length + 16383) / 16384) * 16384 := by
        have hmod := Nat.mod_lt (l.length + 16383) (show 0 < 16384 by omega)
        have hdiv := Nat.div_add_mod (l.length + 16383) 16384
        omega
      have hflat := chunk_slices_flatten ((l.length + 16383) / 16384) l hcover
      rw [chunksOfPath, chunkStarts, List.map_map]
      have hstep : (List.range ((l.length + 16383) / 16384)).map
            ((fun i => (l.drop i).take 16384) ∘ (· * 16384))
          = (List.range ((l.length + 16383) / 16384)).map
            (fun j => (l.drop (j * 16384)).take 16384) := rfl
      rw [hstep]
      exact hflat
  · intro path staged unstaged sv uv hs hu hdec
    simp only [parse_change_record, hs, hu, hdec]

/-- C9 (witness): a quoted path ending in a bare backslash fails to decode
and produces zero records. -/
theorem chunked_unescape_safety_witness :
    parse_change_record ("\"a\\\"", "MODIFIED", "ADDED") = some [] :=
  chunked_unescape_safety.2 "\"a\\\"" "MODIFIED" "ADDED" 3 1
    (by decide) (by decide) (by decide)

/-- A list shorter than `u` is a prefix of `u ++ v` exactly when it is a
prefix of `u`. -/
theorem prefix_append_iff_of_le {pat u : List Char} (v : List Char)
    (h : pat.length ≤ u.length) : pat <+: u ++ v ↔ pat <+: u := by
  constructor
  · intro hp
    exact List.prefix_of_prefix_length_le hp (List.prefix_append u v) h
  · intro hp
    exact hp.trans (List.prefix_append u v)

/-- `find` locates the marker right after a clean pre-section: when the
pattern is a prefix at no position inside `pre ++ pat`, the first occurrence
in `pre ++ pat ++ tail` is at `pre.length`, whatever `tail` is. -/
theorem findSub_append_marker (pre pat tail : List Char) (hne : pat ≠ [])
    (hclean : ∀ j, j < pre.length → ¬ pat.isPrefixOf ((pre ++ pat).drop j)) :
    findSub pat (pre ++ (pat ++ tail)) = some pre.length := by
  induction pre with
  | nil =>
    cases pat with
    | nil => exact absurd rfl hne
    | cons p ps =>
      show findSub (p :: ps) ((p :: ps) ++ tail) = some 0
      rw [List.cons_append]
      rw [findSub]
      rw [if_pos]
      rw [← List.cons_append]
      exact List.isPrefixOf_iff_prefix.mpr (List.prefix_append _ _)
  | cons c pre ih =>
    have h0 : ¬ pat.isPrefixOf (((c :: pre) ++ pat ++ tail)) := by
      intro habs
      have h1 : pat <+: ((c :: pre) ++ pat) ++ tail := by
        rw [List.append_assoc]
        exact List.isPrefixOf_iff_prefix.mp (by simpa [List.append_assoc] using habs)
      have h2 : pat <+: (c :: pre) ++ pat :=
        (prefix_append_iff_of_le tail (by simp [List.length_append]; omega)).mp h1
      exact hclean 0 (by simp) (by simpa using List.isPrefixOf_iff_prefix.mpr h2)
    show findSub pat (c :: (pre ++ (pat ++ tail))) = some (pre.length + 1)
    rw [findSub, if_neg (by simpa [List.append_assoc] using h0)]
    rw [ih (fun j hj => by
      have := hclean (j + 1) (by simpa using Nat.succ_lt_succ hj)
      simpa using this)]
    rfl

/-- `lstrip` keeps a string whose first character is not whitespace. -/
theorem pyLstripChars_cons (c : Char) (l : List Char) (h : isPyWs c = false) :
    pyLstripChars (c :: l) = c :: l := by
  simp [pyLstripChars, List.dropWhile_cons, h]

/-- A key no longer pending is never rebound by the key-line loop: its dict
entry is exactly what it was before the loop. -/
theorem historyLineLoop_lookup_not_mem
    (lines : List (List Char)) (keys : List String)
    (hist : List (String × String)) (k : String) (hk : k ∉ keys) :
    (historyLineLoop lines keys hist).lookup k = hist.lookup k := by
  induction lines generalizing keys hist with
  | nil => rfl
  | cons line lines ih =>
    by_cases hline : line = []
    · rw [historyLineLoop, if_pos hline]
      exact ih keys hist hk
    · rw [historyLineLoop, if_neg hline]
      cases hfind : keys.find? (fun k' => (k'.data ++ [':']).isPrefixOf line) with
      | none => exact ih keys hist hk
      | some k' =>
        have hk' : k' ∈ keys := List.mem_of_find?_eq_some hfind
        have hne : k ≠ k' := fun h => hk (h ▸ hk')
        have hsub : k ∉ keys.erase k' := fun h => hk (List.erase_subset _ _ h)
        rw [ih (keys.erase k') _ hsub]
        simp [dictSet, List.lookup, beq_false_of_ne hne]

/-- The first line matching a pending key determines that key's value: the
key is removed from the pending set, so no later line can rebind it. -/
theorem historyLineLoop_first_match
    (line : List Char) (lines : List (List Char)) (keys : List String)
    (hist : List (String × String)) (k : String)
    (hnd : keys.Nodup) (hline : line ≠ [])
    (hfind : keys.find? (fun k' => (k'.data ++ [':']).isPrefixOf line) = some k) :
    (historyLineLoop (line :: lines) keys hist).lookup k
      = some (⟨line.drop (k.length + 1)⟩ : String) := by
  rw [historyLineLoop, if_neg hline, hfind]
  have hkerase : k ∉ keys.erase k := by
    intro h
    exact absurd ((hnd.mem_erase_iff).mp h).1 (by simp)
  rw [historyLineLoop_lookup_not_mem _ _ _ _ hkerase]
  simp [dictSet, List.lookup]

/-- The description marker of the concrete record is first found exactly at
the end of the concrete pre-section, for every description tail. -/
theorem findSub_histPre (tail : List Char) :
    findSub descMarker (histPre ++ (descMarker ++ tail)) = some histPre.length :=
  findSub_append_marker histPre descMarker tail (by decide) (by decide)

/-- The marker split of the concrete record: the NUL-stripped tail becomes
the description and the concrete pre-section remains for the key lines. -/
theorem descSplit_histPre (d : List Char) :
    descSplit (histPre ++ (descMarker ++ d)) =
      (("description", (⟨stripNul d⟩ : String)) :: ("description", "") :: [],
       histPre) := by
  rw [descSplit]
  simp only [findSub_histPre d]
  have hdrop : (histPre ++ (descMarker ++ d)).drop (histPre.length + 14) = d := by
    rw [← List.append_assoc]
    exact List.drop_left' (by decide)
  have htake : (histPre ++ (descMarker ++ d)).take histPre.length = histPre :=
    List.take_left' rfl
  rw [hdrop, htake]
  rfl

/-- Full parse of the concrete record with an arbitrary description tail. -/
theorem parse_history_histPre (d : List Char) :
    parse_history_record_chars (histPre ++ (descMarker ++ d)) =
      ("commit_date", "100") ::
      ("content", "Hello" ++ "\n" ++ (⟨stripNul d⟩ : String)) ::
      ("title", "Hello") :: ("commit_date", "100") ::
      ("author_email", "e@x") :: ("author_username", "usr") ::
      ("id", "abc") :: ("description", (⟨stripNul d⟩ : String)) ::
      ("description", "") :: [] := by
  have hcons : histPre ++ (descMarker ++ d) = 'i' :: (histPre.tail ++ (descMarker ++ d)) := by
    rw [show histPre = 'i' :: histPre.tail from by decide]
    rfl
  rw [parse_history_record_chars]
  rw [hcons, pyLstripChars_cons _ _ (by decide), ← hcons]
  rw [if_neg (by rw [hcons]; simp)]
  rw [descSplit_histPre d]
  rfl

/-- C8: everything after the literal `"\ndescription:\n"` marker is kept
verbatim (NUL-stripped) as the description and is never re-parsed as
key:value lines — for every description tail `d`, including one containing a
line starting with `"title:"`, the `title` field comes only from the
pre-marker section and the description retains `d` verbatim; moreover each
expected key is consumed at most once: a key not (or no longer) pending is
never rebound, and the first line matching a pending key fixes its value. -/
theorem history_description_verbatim :
    (∀ d : String,
       (parse_history_record
           ((⟨histPre⟩ : String) ++ "\ndescription:\n" ++ d)).lookup "description"
           = some (⟨stripNul d.data⟩ : String) ∧
       (parse_history_record
           ((⟨histPre⟩ : String) ++ "\ndescription:\n" ++ d)).lookup "title"
           = some "Hello" ∧
       (parse_history_record
           ((⟨histPre⟩ : String) ++ "\ndescription:\n" ++ d)).lookup "content"
           = some ("Hello" ++ "\n" ++ (⟨stripNul d.data⟩ : String))) ∧
    (∀ (lines : List (List Char)) (keys : List String)
       (hist : List (String × String)) (k : String),
       k ∉ keys →
       (historyLineLoop lines keys hist).lookup k = hist.lookup k) ∧
    (∀ (line : List Char) (lines : List (List Char)) (keys : List String)
       (hist : List (String × String)) (k : String),
       keys.Nodup → line ≠ [] →
       keys.find? (fun k' => (k'.data ++ [':']).isPrefixOf line) = some k →
       (historyLineLoop (line :: lines) keys hist).lookup k
         = some (⟨line.drop (k.length + 1)⟩ : String)) := by
  refine ⟨?_, historyLineLoop_lookup_not_mem, historyLineLoop_first_match⟩
  intro d
  have hdata : ((⟨histPre⟩ : String) ++ "\ndescription:\n" ++ d).data
      = histPre ++ (descMarker ++ d.data) := by
    simp [String.data_append, descMarker, List.append_assoc]
  rw [parse_history_record, hdata, parse_history_histPre d.data]
  refine ⟨rfl, rfl, rfl⟩

/-- C8 (witness): a record whose description contains an embedded
`title:` line keeps it verbatim in the description and does not change the
title; a consumed or absent key is not rebound; a pending key takes its
first match. -/
theorem history_description_verbatim_witness :
    (parse_history_record
        ((⟨histPre⟩ : String) ++ "\ndescription:\n"
          ++ "First line\ntitle:embedded\nlast")).lookup "description"
      = some (⟨stripNul "First line\ntitle:embedded\nlast".data⟩ : String) ∧
    (parse_history_record
        ((⟨histPre⟩ : String) ++ "\ndescription:\n"
          ++ "First line\ntitle:embedded\nlast")).lookup "title"
      = some "Hello" ∧
    (historyLineLoop ["title:x".data] ["id"] [("title", "first")]).lookup "title"
      = some "first" ∧
    (historyLineLoop ["title:x".data] ["id", "title", "content"] []).lookup "title"
      = some "x" :=
  ⟨(history_description_verbatim.1 "First line\ntitle:embedded\nlast").1,
   (history_description_verbatim.1 "First line\ntitle:embedded\nlast").2.1,
   history_description_verbatim.2.1 ["title:x".data] ["id"] [("title", "first")]
     "title" (by decide),
   history_description_verbatim.2.2 "title:x".data [] ["id", "title", "content"]
     [] "title" (by decide) (by decide) (by decide)⟩

end SpyderVCS
